import Mathlib

/-!
Verification of the StockMarketTools valuation / fundamentals core.

This file gives a shallow embedding, over exact rational arithmetic, of
`src/models/valuation.py` (DCF valuation engine), `src/utils/fundamentals.py`
(fundamentals normalizer) and the percentile-scoring core of
`src/analysis/quality_value_screener.py`, and proves properties of the
embedded functions.

Modelling conventions:
* Python floats are modelled as `ℚ`.
* A pandas DataFrame is modelled as a `Frame`: a list of row labels, a list
  of column labels, and a cell function returning `some q` when the cell
  holds the numeric value `q` and `none` when the row/column pair holds no
  usable numeric value (absent label or non-convertible cell).
* A column label is modelled by `ColLabel`: either a label whose
  `pd.to_datetime` parse succeeds (carrying the parsed date as an integer
  day ordinal together with its `%Y-%m-%d` rendering), or a plain string
  label that does not parse as a date.
* Fallible Python code is modelled in `Except String`; the error string
  names the Python exception class that would be raised.  A caught
  exception corresponds to matching on the `Except` value; an uncaught one
  propagates as `.error`.
-/

/-- A pandas column label: either one that `pd.to_datetime` parses (with the
parsed date as an integer ordinal `d` and ISO rendering `iso`), or a plain
string label that does not parse as a date. -/
inductive ColLabel
| date (d : ℤ) (iso : String)
| text (s : String)
deriving DecidableEq, Repr

/-- Result of `pd.to_datetime(label, errors="coerce")`: the parsed date, or
`none` for `NaT`. -/
def parseDate : ColLabel → Option ℤ
| .date d _ => some d
| .text _ => none

/-- The string form of a column label: for a parsed date this is its
`%Y-%m-%d` `strftime` rendering, for a plain label it is `str(label)`. -/
def labelStr : ColLabel → String
| .date _ iso => iso
| .text s => s

/-- A pandas DataFrame with labelled rows and columns.  `cell r c = some q`
means the cell at row `r`, column `c` holds the numeric value `q`; `none`
means the labels are absent or the cell holds no usable numeric value. -/
structure Frame where
  rows : List String
  cols : List ColLabel
  cell : String → ColLabel → Option ℚ

/-- `frame.empty` in pandas: some axis has length zero. -/
def Frame.isEmptyFrame (f : Frame) : Bool :=
  f.rows.isEmpty || f.cols.isEmpty

/-- The fold behind `pd.Series(parsed).idxmax()`: scans the column labels in
order, keeping the first label achieving the maximum parsed date and
ignoring labels that do not parse (`NaT`).  Returns `none` when no label
parses and the accumulator is empty. -/
def bestDated : List ColLabel → Option (ColLabel × ℤ) → Option (ColLabel × ℤ)
| [], best => best
| c :: rest, best =>
    bestDated rest
      (match parseDate c, best with
       | some d, none => some (c, d)
       | some d, some (b, m) => if m < d then some (c, d) else some (b, m)
       | none, b => b)

/-- Embeds `_latest_period_column` from `src/models/valuation.py`: `None` for
a missing/empty frame, else the column whose label parses to the maximum
date, else the first column. -/
def latest_period_column (frame : Option Frame) : Option ColLabel :=
  match frame with
  | none => none
  | some fr =>
    if fr.isEmptyFrame then none
    else
      match bestDated fr.cols none with
      | some (c, _) => some c
      | none => fr.cols.head?

/-- Embeds `_latest_free_cash_flow`: raises `ValueError` when no period
column can be determined, and `KeyError` when the `'Free Cash Flow'` cell is
not available at the latest column (the `.loc` lookup). -/
def latest_free_cash_flow (cashflow_df : Option Frame) : Except String ℚ :=
  match latest_period_column cashflow_df with
  | none => .error "ValueError"
  | some col =>
    match cashflow_df with
    | none => .error "ValueError"
    | some fr =>
      match fr.cell "Free Cash Flow" col with
      | some v => .ok v
      | none => .error "KeyError"

/-- Embeds the `DcfAssumptions` dataclass.  `projection_years` is a Python
`int`, modelled as `ℤ`. -/
structure DcfAssumptions where
  discount_rate : ℚ
  growth_rate : ℚ
  terminal_growth_rate : ℚ
  projection_years : ℤ
deriving DecidableEq, Repr

/-- Embeds `DcfAssumptions.defaults()`. -/
def DcfAssumptions.defaults : DcfAssumptions :=
  ⟨1/10, 3/100, 1/50, 5⟩

/-- The five validation rules of `DcfAssumptions.validate`, in source order,
each as (condition that must hold, message appended when it fails). -/
def validationRules (a : DcfAssumptions) : List (Bool × String) :=
  [ (decide ((-1/2 : ℚ) ≤ a.discount_rate ∧ a.discount_rate ≤ 1/2),
     "Discount rate must be between -50% and 50%."),
    (decide ((-1/2 : ℚ) ≤ a.growth_rate ∧ a.growth_rate ≤ 1/2),
     "Growth rate must be between -50% and 50%."),
    (decide ((-1/2 : ℚ) ≤ a.terminal_growth_rate ∧ a.terminal_growth_rate ≤ 1/2),
     "Terminal growth must be between -50% and 50%."),
    (decide (1 ≤ a.projection_years ∧ a.projection_years ≤ 20),
     "Projection years must be between 1 and 20."),
    (decide (a.terminal_growth_rate < a.discount_rate),
     "Discount rate must be greater than terminal growth rate.") ]

/-- The error list `DcfAssumptions.validate` accumulates, in source order:
each violated rule appends its message. -/
def validationErrors (a : DcfAssumptions) : List String :=
  (if (-1/2 : ℚ) ≤ a.discount_rate ∧ a.discount_rate ≤ 1/2 then []
   else ["Discount rate must be between -50% and 50%."]) ++
  (if (-1/2 : ℚ) ≤ a.growth_rate ∧ a.growth_rate ≤ 1/2 then []
   else ["Growth rate must be between -50% and 50%."]) ++
  (if (-1/2 : ℚ) ≤ a.terminal_growth_rate ∧ a.terminal_growth_rate ≤ 1/2 then []
   else ["Terminal growth must be between -50% and 50%."]) ++
  (if 1 ≤ a.projection_years ∧ a.projection_years ≤ 20 then []
   else ["Projection years must be between 1 and 20."]) ++
  (if a.terminal_growth_rate < a.discount_rate then []
   else ["Discount rate must be greater than terminal growth rate."])

/-- Embeds `DcfAssumptions.validate`: appends the message of every violated
rule in source order and joins them with a space; returns `(True, None)` when
no rule is violated. -/
def DcfAssumptions.validate (a : DcfAssumptions) : Bool × Option String :=
  if (validationErrors a).isEmpty then (true, none)
  else (false, some (String.intercalate " " (validationErrors a)))

/-- Embeds the `ValuationResult` dataclass (all three fields `Optional`). -/
structure ValuationResult where
  enterprise_value : Option ℚ
  equity_value : Option ℚ
  fair_value_per_share : Option ℚ
deriving DecidableEq, Repr

/-- Embeds `calculate_fair_value`.  The `assumptions is None` default path of
the source (building assumptions from the keyword arguments) is not
modelled: assumptions are always passed explicitly.  The `try/except`
around `_latest_free_cash_flow` is the `.error → .ok none` branch; the
arithmetic after it is outside the `try`, so its division errors
(`projected_fcf[-1]` on an empty projection, division by
`discount_rate - terminal_growth_rate`, division by `(1+discount_rate)^i`)
propagate as `.error`.  The per-share division happens only when
`shares_outstanding` is truthy (non-`None` and non-zero). -/
def calculate_fair_value (cashflow_df : Option Frame)
    (net_debt shares_outstanding : Option ℚ)
    (assumptions : DcfAssumptions) : Except String (Option ValuationResult) :=
  let dr := assumptions.discount_rate
  let g := assumptions.growth_rate
  let tg := assumptions.terminal_growth_rate
  let n := assumptions.projection_years.toNat
  match latest_free_cash_flow cashflow_df with
  | .error _ => .ok none
  | .ok fcf =>
    -- projected_fcf = [fcf * (1+g)**i for i in range(1, projection_years+1)]
    let pf : ℕ → ℚ := fun i => fcf * (1 + g) ^ (i + 1)
    let projected := (List.range n).map pf
    match projected.getLast? with
    | none => .error "IndexError"        -- projected_fcf[-1] on an empty list
    | some lastFcf =>
      if dr - tg = 0 then .error "ZeroDivisionError"
      else if (1 : ℚ) + dr = 0 then .error "ZeroDivisionError"
      else
        let terminal_value := lastFcf * (1 + tg) / (dr - tg)
        -- pv_fcf = sum(cf / (1+dr)**i for i, cf in enumerate(projected_fcf, start=1))
        let pv_fcf := ((List.range n).map (fun i => pf i / (1 + dr) ^ (i + 1))).sum
        let pv_terminal := terminal_value / (1 + dr) ^ n
        let enterprise_value := pv_fcf + pv_terminal
        let equity_value :=
          match net_debt with
          | some nd => enterprise_value - nd
          | none => enterprise_value
        let fair_value_per_share : Option ℚ :=
          match shares_outstanding with
          | some s => if s = 0 then none else some (equity_value / s)
          | none => none
        .ok (some ⟨some enterprise_value, some equity_value, fair_value_per_share⟩)

/-- The three discount-rate grid values of `calculate_fair_value_range`. -/
def discountValues (a : DcfAssumptions) (variation : ℚ) : List ℚ :=
  [a.discount_rate - variation, a.discount_rate, a.discount_rate + variation]

/-- The three growth-rate grid values of `calculate_fair_value_range`. -/
def growthValues (a : DcfAssumptions) (variation : ℚ) : List ℚ :=
  [a.growth_rate - variation, a.growth_rate, a.growth_rate + variation]

/-- The nested `for d in discount_values: for g in growth_values:` loop order
of `calculate_fair_value_range`. -/
def scenarioPairs (ds gs : List ℚ) : List (ℚ × ℚ) :=
  ds.flatMap (fun d => gs.map (fun g => (d, g)))

/-- The body of the grid loop of `calculate_fair_value_range`: runs the
scenarios in order, appending each non-`None` `fair_value_per_share`;
an exception raised by any scenario propagates. -/
def runScenarios (cf : Option Frame) (nd sh : Option ℚ) (tg : ℚ) (y : ℤ) :
    List (ℚ × ℚ) → Except String (List ℚ)
| [] => .ok []
| (d, g) :: rest =>
    match calculate_fair_value cf nd sh ⟨d, g, tg, y⟩ with
    | .error e => .error e
    | .ok result =>
      match runScenarios cf nd sh tg y rest with
      | .error e => .error e
      | .ok vs =>
        match result with
        | some r =>
          match r.fair_value_per_share with
          | some v => .ok (v :: vs)
          | none => .ok vs
        | none => .ok vs

/-- Embeds `calculate_fair_value_range` (with assumptions always passed
explicitly, as in `calculate_fair_value`).  Returns `None` when no scenario
produced a per-share value, else `(min, max)` of the collected values. -/
def calculate_fair_value_range (cashflow_df : Option Frame)
    (net_debt shares_outstanding : Option ℚ) (assumptions : DcfAssumptions)
    (discount_rate_variation growth_rate_variation : ℚ) :
    Except String (Option (ℚ × ℚ)) :=
  let ds := discountValues assumptions discount_rate_variation
  let gs := growthValues assumptions growth_rate_variation
  match runScenarios cashflow_df net_debt shares_outstanding
      assumptions.terminal_growth_rate assumptions.projection_years
      (scenarioPairs ds gs) with
  | .error e => .error e
  | .ok [] => .ok none
  | .ok (v :: vs) => .ok (some (vs.foldl min v, vs.foldl max v))

/-- A Python value stored in the `info` mapping: a number or a string. -/
inductive PyVal
| num (q : ℚ)
| str (s : String)
deriving DecidableEq, Repr

/-- Python truthiness of a `PyVal`. -/
def pyTruthy : PyVal → Bool
| .num q => q ≠ 0
| .str s => s ≠ ""

/-- Python `v > 0`: a `TypeError` for a string operand. -/
def pyGtZero : PyVal → Except String Bool
| .num q => .ok (decide (0 < q))
| .str _ => .error "TypeError"

/-- Python `v <= 0`: a `TypeError` for a string operand. -/
def pyLeZero : PyVal → Except String Bool
| .num q => .ok (decide (q ≤ 0))
| .str _ => .error "TypeError"

/-- Embeds the `FundamentalsSnapshot` dataclass. -/
structure FundamentalsSnapshot where
  cash_and_equivalents : Option ℚ
  total_debt : Option ℚ
  net_debt : Option ℚ
  shares_outstanding : Option ℚ
  balance_sheet_as_of : Option String
  pulled_at : String
  cash_source : Option String
  debt_source : Option String
  shares_source : Option String
  warnings : List String
  note_tags : List String
deriving DecidableEq, Repr

/-- Embeds `_latest_column_info` from `src/utils/fundamentals.py`: the same
latest-column policy as `_latest_period_column`, additionally returning the
`as_of` string (the `strftime` of the parsed date, or `str` of the label in
the fallback branch). -/
def latest_column_info (balance_sheet : Option Frame) :
    Option ColLabel × Option String :=
  match balance_sheet with
  | none => (none, none)
  | some fr =>
    if fr.isEmptyFrame then (none, none)
    else
      match bestDated fr.cols none with
      | some (c, _) => (some c, some (labelStr c))
      | none => (fr.cols.head?, fr.cols.head?.map labelStr)

/-- Embeds `_value_from_column`: guarded lookup of a single cell, `None` on a
missing frame/column, a missing label, or a value `float()` cannot convert
(the caught `TypeError`/`ValueError`). -/
def value_from_column (frame : Option Frame) (label : String)
    (column_label : Option ColLabel) : Option ℚ :=
  match frame, column_label with
  | none, _ => none
  | _, none => none
  | some fr, some col =>
    if fr.isEmptyFrame then none
    else if label ∈ fr.rows ∧ col ∈ fr.cols then fr.cell label col
    else none

def BALANCE_SHEET_CASH_FIELDS : List String :=
  ["Cash And Cash Equivalents", "Cash", "CashAndCashEquivalents"]

def BALANCE_SHEET_TOTAL_DEBT_FIELDS : List String :=
  ["Total Debt", "Net Debt"]

def SHORT_TERM_DEBT_FIELDS : List String :=
  ["Short Long Term Debt", "Short Term Debt", "Current Debt"]

def LONG_TERM_DEBT_FIELDS : List String :=
  ["Long Term Debt"]

/-- First field of the candidate list that resolves to a value, with the
field name that matched (the shared loop shape of `_resolve_cash` and
`_resolve_total_debt`). -/
def firstMatch (bs : Option Frame) (col : Option ColLabel) :
    List String → Option (ℚ × String)
| [] => none
| f :: rest =>
    match value_from_column bs f col with
    | some v => some (v, f)
    | none => firstMatch bs col rest

/-- Embeds `_resolve_cash`. -/
def resolve_cash (bs : Option Frame) (col : Option ColLabel) :
    Option ℚ × Option String :=
  match firstMatch bs col BALANCE_SHEET_CASH_FIELDS with
  | some (v, f) => (some v, some f)
  | none => (none, none)

/-- Embeds `_resolve_total_debt`: a direct total/net-debt row first, else the
sum of the first resolving long-term and short-term rows (an unresolved
component treated as 0 when the other resolved). -/
def resolve_total_debt (bs : Option Frame) (col : Option ColLabel) :
    Option ℚ × Option String :=
  match firstMatch bs col BALANCE_SHEET_TOTAL_DEBT_FIELDS with
  | some (v, f) => (some v, some f)
  | none =>
    let long_term := (firstMatch bs col LONG_TERM_DEBT_FIELDS).map (fun p => p.1)
    let short_term := (firstMatch bs col SHORT_TERM_DEBT_FIELDS).map (fun p => p.1)
    match long_term, short_term with
    | none, none => (none, none)
    | lt, st => (some (lt.getD 0 + st.getD 0), some "Long Term Debt + Short Term Debt")

/-- The Python condition `shares and shares > 0`: truthiness short-circuit,
then the fallible comparison. -/
def sharesCond1 (s0 : Option PyVal) : Except String Bool :=
  match s0 with
  | none => .ok false
  | some v => if pyTruthy v then pyGtZero v else .ok false

/-- The Python condition `not shares or shares <= 0`. -/
def sharesCond2 (sh : Option PyVal) : Except String Bool :=
  match sh with
  | none => .ok true
  | some v => if pyTruthy v then pyLeZero v else .ok true

/-- The `shares = info["impliedSharesOutstanding"]` fallback taken when the
first condition fails: a truthy implied value replaces the shares, else the
original value stays with no source. -/
def sharesFallback (s0 implied : Option PyVal) (cond1 : Bool) :
    Option PyVal × Option String :=
  if cond1 then (s0, some "sharesOutstanding")
  else
    match implied with
    | some v =>
      if pyTruthy v then (some v, some "impliedSharesOutstanding")
      else (s0, (none : Option String))
    | none => (s0, (none : Option String))

/-- Embeds the shares-resolution block of `extract_fundamentals`:
`sharesOutstanding` when truthy and `> 0`, else a truthy
`impliedSharesOutstanding`, else `None` with a warning.  The comparisons
`shares > 0` / `shares <= 0` are evaluated only after a truthiness check and
raise `TypeError` on a string value. -/
def resolve_shares (info : String → Option PyVal) :
    Except String (Option PyVal × Option String × List String) :=
  match sharesCond1 (info "sharesOutstanding") with
  | .error e => .error e
  | .ok cond1 =>
    let shares1 := sharesFallback (info "sharesOutstanding")
      (info "impliedSharesOutstanding") cond1
    match sharesCond2 shares1.1 with
    | .error e => .error e
    | .ok cond2 =>
      if cond2 then
        .ok (none, none, ["Shares outstanding unavailable; per-share valuation disabled."])
      else .ok (shares1.1, shares1.2, [])

/-- Embeds `extract_fundamentals`.  `pulled_at` (the `datetime.utcnow()`
timestamp) is passed as an argument.  The `note_tags` list is built directly
in the alphabetical order that `sorted(set(tags))` produces: each condition
appends its tag at most once and the five tag strings are distinct, so the
sorted set is precisely the alphabetical list of the tags whose condition
held. -/
def extract_fundamentals (info : String → Option PyVal)
    (balance_sheet : Option Frame) (pulled_at : String) :
    Except String FundamentalsSnapshot :=
  let latest := latest_column_info balance_sheet
  let cash₀ := resolve_cash balance_sheet latest.1
  let debt₀ := resolve_total_debt balance_sheet latest.1
  let cashR :=
    match cash₀.1 with
    | none => (some (0 : ℚ), (none : Option String),
        ["Cash & equivalents missing; assuming 0."])
    | some c => (some c, cash₀.2, ([] : List String))
  let debtR :=
    match debt₀.1 with
    | none => (some (0 : ℚ), (none : Option String),
        ["Total debt missing; assuming 0."])
    | some t => (some t, debt₀.2, ([] : List String))
  let net_debt : Option ℚ :=
    match debtR.1, cashR.1 with
    | some t, some c => some (t - c)
    | _, _ => none
  match resolve_shares info with
  | .error e => .error e
  | .ok sharesR =>
    let asOf :=
      match balance_sheet with
      | none => ((none : Option String),
          ["Balance sheet unavailable; debt and cash taken as 0."])
      | some fr =>
        if fr.isEmptyFrame then
          (none, ["Balance sheet unavailable; debt and cash taken as 0."])
        else (latest.2, [])
    let sharesQ : Option ℚ :=
      match sharesR.1 with
      | some (.num q) => some q
      | _ => none
    let note_tags :=
      (if cashR.2.1 = none then ["ASSUMED_CASH_ZERO"] else []) ++
      (if debtR.2.1 = none then ["ASSUMED_DEBT_ZERO"] else []) ++
      (if sharesR.1 = none then ["MISSING_SHARES"] else []) ++
      (match net_debt with
       | some ndv => if ndv < 0 then ["NET_CASH"] else []
       | none => []) ++
      (if asOf.1 = none then ["NO_BALANCE_SHEET"] else [])
    .ok ⟨cashR.1, debtR.1, net_debt, sharesQ, asOf.1, pulled_at,
         cashR.2.1, debtR.2.1, sharesR.2.1,
         cashR.2.2 ++ debtR.2.2 ++ sharesR.2.2 ++ asOf.2, note_tags⟩

/-- One row of the screener results table, as appended by
`analyze_quality_value_screener` before the percentile-normalization block
(only the fields that block consumes). -/
structure ScreenerRecord where
  value_score : ℚ
  raw_roe : Option ℚ
  raw_revenue_growth : Option ℚ
  raw_debt_to_equity : Option ℚ
deriving DecidableEq, Repr

/-- Embeds pandas `Series.rank(pct=True)` (default tie method `'average'`)
evaluated at the value `x` of a non-null entry: the ranks of a tie group are
the consecutive 1-based positions the group occupies in sorted order, whose
average is `(#strictly-below) + ((#ties) + 1)/2`; `pct=True` divides by the
number of non-null entries. -/
def rankPctAvg (vals : List ℚ) (x : ℚ) : ℚ :=
  ((vals.countP (fun v => decide (v < x)) : ℚ) +
    ((vals.countP (fun v => decide (v = x)) : ℚ) + 1) / 2) / (vals.length : ℚ)

/-- The non-null Raw ROE column. -/
def roeValues (records : List ScreenerRecord) : List ℚ :=
  records.filterMap (fun t => t.raw_roe)

/-- The non-null Raw Revenue Growth column. -/
def growthValues' (records : List ScreenerRecord) : List ℚ :=
  records.filterMap (fun t => t.raw_revenue_growth)

/-- The non-null Raw Debt-to-Equity column. -/
def d2eValues (records : List ScreenerRecord) : List ℚ :=
  records.filterMap (fun t => t.raw_debt_to_equity)

/-- Embeds `df["Quality Score"] = df["Raw ROE"].rank(pct=True)` followed by
`.fillna(0.5)`: a record with null ROE gets the neutral 0.5. -/
def qualityScore (records : List ScreenerRecord) (r : ScreenerRecord) : ℚ :=
  match r.raw_roe with
  | some x => rankPctAvg (roeValues records) x
  | none => 1/2

/-- Embeds `df["Growth Score"] = df["Raw Revenue Growth"].rank(pct=True)`
followed by `.fillna(0.5)`. -/
def growthScore (records : List ScreenerRecord) (r : ScreenerRecord) : ℚ :=
  match r.raw_revenue_growth with
  | some x => rankPctAvg (growthValues' records) x
  | none => 1/2

/-- Embeds `df["Stability Score"] = 1 - df["Raw Debt-to-Equity"].rank(pct=True)`
followed by `.fillna(0.5)` (`1 - NaN` is `NaN`, so a null input still ends at
0.5). -/
def stabilityScore (records : List ScreenerRecord) (r : ScreenerRecord) : ℚ :=
  match r.raw_debt_to_equity with
  | some x => 1 - rankPctAvg (d2eValues records) x
  | none => 1/2

/-- Modelled from the spec: the `min` tie-convention percentile rank the spec
ascribes to the screener — every member of a tie group receives the lowest
1-based rank of the group, `(#strictly-below) + 1`, divided by the number of
entries. -/
def rankPctMin (vals : List ℚ) (x : ℚ) : ℚ :=
  ((vals.countP (fun v => decide (v < x)) : ℚ) + 1) / (vals.length : ℚ)

/-- The `max` tie-convention percentile rank (highest rank of the tie group),
used to characterise the `average` convention as the midpoint of `min` and
`max`. -/
def rankPctMax (vals : List ℚ) (x : ℚ) : ℚ :=
  (vals.countP (fun v => decide (v ≤ x)) : ℚ) / (vals.length : ℚ)

/-- A one-row cash-flow table with Free Cash Flow 100 at a single
date-labelled column, mirroring the repository's test fixture. -/
def sampleCashflow : Frame where
  rows := ["Free Cash Flow"]
  cols := [ColLabel.date 20241231 "2024-12-31"]
  cell := fun r c =>
    if r = "Free Cash Flow" ∧ c = ColLabel.date 20241231 "2024-12-31" then some 100
    else none

/-- The closed form of the enterprise value `calculate_fair_value` computes:
discounted projected FCFs plus the discounted Gordon-growth terminal value. -/
def enterpriseValueFormula (fcf : ℚ) (a : DcfAssumptions) : ℚ :=
  ((List.range a.projection_years.toNat).map
      (fun i => fcf * (1 + a.growth_rate) ^ (i + 1) / (1 + a.discount_rate) ^ (i + 1))).sum +
    fcf * (1 + a.growth_rate) ^ a.projection_years.toNat * (1 + a.terminal_growth_rate) /
        (a.discount_rate - a.terminal_growth_rate) /
      (1 + a.discount_rate) ^ a.projection_years.toNat

/-- The equity value derived from an enterprise value and an optional net
debt, as in `calculate_fair_value`. -/
def equityValueOf (ev : ℚ) (net_debt : Option ℚ) : ℚ :=
  match net_debt with
  | some nd => ev - nd
  | none => ev

/-- The optional per-share value derived from an equity value and optional
shares outstanding, as in `calculate_fair_value`. -/
def fairValueOf (eq : ℚ) (shares_outstanding : Option ℚ) : Option ℚ :=
  match shares_outstanding with
  | some s => if s = 0 then none else some (eq / s)
  | none => none

lemma range_map_getLast? (f : ℕ → ℚ) (n : ℕ) (hn : n ≠ 0) :
    ((List.range n).map f).getLast? = some (f (n - 1)) := by
  obtain ⟨m, rfl⟩ : ∃ m, n = m + 1 := ⟨n - 1, by omega⟩
  rw [List.range_succ, List.map_append]
  simp

/-- Evaluation lemma: when the FCF lookup succeeds and the assumptions avoid
the failure paths, `calculate_fair_value` returns the closed-form result. -/
lemma cfv_eval (cf : Option Frame) (nd sh : Option ℚ) (a : DcfAssumptions) (fcf : ℚ)
    (hf : latest_free_cash_flow cf = .ok fcf)
    (hn : 1 ≤ a.projection_years)
    (hd : a.discount_rate - a.terminal_growth_rate ≠ 0)
    (h1 : (1 : ℚ) + a.discount_rate ≠ 0) :
    calculate_fair_value cf nd sh a =
      .ok (some ⟨some (enterpriseValueFormula fcf a),
                 some (equityValueOf (enterpriseValueFormula fcf a) nd),
                 fairValueOf (equityValueOf (enterpriseValueFormula fcf a) nd) sh⟩) := by
  have hn0 : a.projection_years.toNat ≠ 0 := by omega
  have hlast := range_map_getLast?
    (fun i => fcf * (1 + a.growth_rate) ^ (i + 1)) a.projection_years.toNat hn0
  have hpow : a.projection_years.toNat - 1 + 1 = a.projection_years.toNat := by omega
  simp only [calculate_fair_value, hf, hlast, hpow, if_neg hd, if_neg h1]
  simp only [enterpriseValueFormula, equityValueOf, fairValueOf]

/-- The conjunction of the five validation conditions. -/
def validConditions (a : DcfAssumptions) : Prop :=
  ((-1/2 : ℚ) ≤ a.discount_rate ∧ a.discount_rate ≤ 1/2) ∧
  ((-1/2 : ℚ) ≤ a.growth_rate ∧ a.growth_rate ≤ 1/2) ∧
  ((-1/2 : ℚ) ≤ a.terminal_growth_rate ∧ a.terminal_growth_rate ≤ 1/2) ∧
  (1 ≤ a.projection_years ∧ a.projection_years ≤ 20) ∧
  a.terminal_growth_rate < a.discount_rate

instance (a : DcfAssumptions) : Decidable (validConditions a) := by
  unfold validConditions
  infer_instance

lemma ite_nil_eq_nil {c : Prop} [Decidable c] (m : String) :
    ((if c then ([] : List String) else [m]) = []) ↔ c := by
  by_cases h : c <;> simp [h]

lemma validationErrors_eq_nil_iff (a : DcfAssumptions) :
    validationErrors a = [] ↔ validConditions a := by
  unfold validationErrors validConditions
  simp only [List.append_eq_nil, ite_nil_eq_nil]
  tauto

lemma validate_fst_iff (a : DcfAssumptions) :
    a.validate.1 = true ↔ validConditions a := by
  rw [← validationErrors_eq_nil_iff, ← List.isEmpty_iff]
  unfold DcfAssumptions.validate
  by_cases h : (validationErrors a).isEmpty <;> simp [h]

lemma validate_eq_true_none_iff (a : DcfAssumptions) :
    a.validate = (true, none) ↔ validConditions a := by
  rw [← validate_fst_iff]
  unfold DcfAssumptions.validate
  split <;> simp_all

lemma validConditions_of_validate {a : DcfAssumptions} (h : a.validate = (true, none)) :
    validConditions a := (validate_eq_true_none_iff a).mp h

lemma sum_range_map_pos (f : ℕ → ℚ) (n : ℕ) (hn : n ≠ 0)
    (h : ∀ i, i < n → 0 < f i) : 0 < ((List.range n).map f).sum := by
  apply List.sum_pos
  · intro x hx
    rw [List.mem_map] at hx
    obtain ⟨i, hi, rfl⟩ := hx
    exact h i (List.mem_range.mp hi)
  · simp only [ne_eq, List.map_eq_nil_iff, List.range_eq_nil]
    exact hn

lemma sum_range_map_lt (f g : ℕ → ℚ) (n : ℕ) (hn : n ≠ 0)
    (h : ∀ i, i < n → f i < g i) :
    ((List.range n).map f).sum < ((List.range n).map g).sum := by
  induction n with
  | zero => exact absurd rfl hn
  | succ m ih =>
    rw [List.range_succ, List.map_append, List.map_append,
      List.sum_append, List.sum_append]
    rcases Nat.eq_zero_or_pos m with rfl | hm
    · simpa using h 0 (by omega)
    · have hrec := ih (by omega) (fun i hi => h i (by omega))
      have hlast := h m (by omega)
      simp only [List.map_cons, List.map_nil, List.sum_cons, List.sum_nil]
      linarith

lemma div_lt_div_same_denom {a b c : ℚ} (h : a < b) (hc : 0 < c) :
    a / c < b / c := by
  rw [div_eq_mul_inv, div_eq_mul_inv]
  exact mul_lt_mul_of_pos_right h (inv_pos.mpr hc)

lemma sampleCashflow_fcf : latest_free_cash_flow (some sampleCashflow) = .ok 100 := by
  simp [latest_free_cash_flow, latest_period_column, sampleCashflow,
    Frame.isEmptyFrame, bestDated, parseDate]

/-- Inversion: a non-`None` result of `calculate_fair_value` always has the
shape produced by its final return statement. -/
lemma cfv_ok_some_shape (cf : Option Frame) (nd sh : Option ℚ) (a : DcfAssumptions)
    (r : ValuationResult) (h : calculate_fair_value cf nd sh a = .ok (some r)) :
    ∃ ev, r = ⟨some ev, some (equityValueOf ev nd), fairValueOf (equityValueOf ev nd) sh⟩ := by
  simp only [calculate_fair_value] at h
  rcases hf : latest_free_cash_flow cf with e | fcf <;> simp only [hf] at h
  · simp at h
  · rcases hl : ((List.range a.projection_years.toNat).map
        (fun i => fcf * (1 + a.growth_rate) ^ (i + 1))).getLast? with _ | lastF <;>
      simp only [hl] at h
    · simp at h
    · by_cases h1 : a.discount_rate - a.terminal_growth_rate = 0
      · rw [if_pos h1] at h
        simp at h
      rw [if_neg h1] at h
      by_cases h2 : (1 : ℚ) + a.discount_rate = 0
      · rw [if_pos h2] at h
        simp at h
      rw [if_neg h2] at h
      simp only [Except.ok.injEq, Option.some.injEq] at h
      · refine ⟨((List.range a.projection_years.toNat).map
            (fun i => fcf * (1 + a.growth_rate) ^ (i + 1) / (1 + a.discount_rate) ^ (i + 1))).sum
            + lastF * (1 + a.terminal_growth_rate) / (a.discount_rate - a.terminal_growth_rate)
              / (1 + a.discount_rate) ^ a.projection_years.toNat, ?_⟩
        rw [← h]
        rcases nd with _ | d <;> rcases sh with _ | s <;>
          simp [equityValueOf, fairValueOf]

lemma sample_cfv_eval :
    calculate_fair_value (some sampleCashflow) none (some 4) ⟨1, 0, 0, 1⟩ =
      .ok (some ⟨some 100, some 100, some 25⟩) := by
  have h := cfv_eval (some sampleCashflow) none (some 4) ⟨1, 0, 0, 1⟩ 100
    sampleCashflow_fcf (by norm_num) (by norm_num) (by norm_num)
  rw [h]
  norm_num [enterpriseValueFormula, equityValueOf, fairValueOf, List.range_succ]

/-- C1 (amended): for every run of `calculate_fair_value` that returns a
non-null result, `fair_value_per_share` is null iff `shares_outstanding` is
null or exactly zero (Python truthiness), and passing zero shares behaves
exactly like passing no shares — the division is never attempted, so no
division error is raised.  A strictly negative `shares_outstanding` is
truthy and therefore produces a non-null (negative) per-share value, contrary
to the original claim. -/
theorem c1_per_share_null_iff :
    (∀ (cf : Option Frame) (nd sh : Option ℚ) (a : DcfAssumptions) (r : ValuationResult),
      calculate_fair_value cf nd sh a = .ok (some r) →
      (r.fair_value_per_share = none ↔ sh = none ∨ sh = some 0)) ∧
    (∀ (cf : Option Frame) (nd : Option ℚ) (a : DcfAssumptions),
      calculate_fair_value cf nd (some 0) a = calculate_fair_value cf nd none a) := by
  constructor
  · intro cf nd sh a r h
    obtain ⟨ev, rfl⟩ := cfv_ok_some_shape cf nd sh a r h
    rcases sh with _ | s
    · simp [fairValueOf]
    · by_cases hs : s = 0 <;> simp [fairValueOf, hs]
  · intro cf nd a
    simp only [calculate_fair_value]
    rcases hf : latest_free_cash_flow cf with e | fcf <;> simp only [hf]
    · rcases hl : ((List.range a.projection_years.toNat).map
          (fun i => fcf * (1 + a.growth_rate) ^ (i + 1))).getLast? with _ | lastF <;>
        simp only [hl]
      split_ifs with h1 h2 <;> simp

/-- C1 witness: at the sample cash-flow table with 4 shares outstanding the
returned per-share value (25) is non-null, matching the iff. -/
theorem c1_per_share_null_iff_witness :
    ((⟨some 100, some 100, some 25⟩ : ValuationResult).fair_value_per_share = none ↔
      (some (4:ℚ) : Option ℚ) = none ∨ (some (4:ℚ) : Option ℚ) = some 0) :=
  c1_per_share_null_iff.1 (some sampleCashflow) none (some 4) ⟨1, 0, 0, 1⟩
    ⟨some 100, some 100, some 25⟩ sample_cfv_eval

/-- C1 counterexample: with `shares_outstanding = -5` (≤ 0, so the original
claim demands a null per-share value) `calculate_fair_value` divides anyway
and returns the non-null per-share value `-20`. -/
theorem c1_counterexample :
    calculate_fair_value (some sampleCashflow) none (some (-5)) ⟨1, 0, 0, 1⟩ =
      .ok (some ⟨some 100, some 100, some (-20)⟩) ∧
    (-5 : ℚ) ≤ 0 ∧ (some (-20) : Option ℚ) ≠ none := by
  refine ⟨?_, by norm_num, by simp⟩
  have h := cfv_eval (some sampleCashflow) none (some (-5)) ⟨1, 0, 0, 1⟩ 100
    sampleCashflow_fcf (by norm_num) (by norm_num) (by norm_num)
  rw [h]
  norm_num [enterpriseValueFormula, equityValueOf, fairValueOf, List.range_succ]

/-- C9: whenever `calculate_fair_value` returns a non-null result, both
`enterprise_value` and `equity_value` are non-null, and `equity_value` is
`enterprise_value - net_debt` when net debt was supplied, else equals
`enterprise_value`. -/
theorem c9_result_fields :
    ∀ (cf : Option Frame) (nd sh : Option ℚ) (a : DcfAssumptions) (r : ValuationResult),
      calculate_fair_value cf nd sh a = .ok (some r) →
      ∃ ev, r.enterprise_value = some ev ∧
        (nd = none → r.equity_value = some ev) ∧
        (∀ d, nd = some d → r.equity_value = some (ev - d)) := by
  intro cf nd sh a r h
  obtain ⟨ev, rfl⟩ := cfv_ok_some_shape cf nd sh a r h
  refine ⟨ev, rfl, ?_, ?_⟩
  · rintro rfl
    rfl
  · rintro d rfl
    rfl

/-- C9 witness: instantiated at the sample valuation. -/
theorem c9_result_fields_witness :
    ∃ ev, (⟨some 100, some 100, some 25⟩ : ValuationResult).enterprise_value = some ev ∧
      ((none : Option ℚ) = none →
        (⟨some 100, some 100, some 25⟩ : ValuationResult).equity_value = some ev) ∧
      (∀ d, (none : Option ℚ) = some d →
        (⟨some 100, some 100, some 25⟩ : ValuationResult).equity_value = some (ev - d)) :=
  c9_result_fields (some sampleCashflow) none (some 4) ⟨1, 0, 0, 1⟩
    ⟨some 100, some 100, some 25⟩ sample_cfv_eval

/-- C3: for every assumption set that passes validation and every cash-flow
input whose latest Free Cash Flow is strictly positive,
`calculate_fair_value` returns a non-null result whose enterprise value is
strictly positive. -/
theorem c3_positive_enterprise_value :
    ∀ (cf : Option Frame) (nd sh : Option ℚ) (a : DcfAssumptions) (fcf : ℚ),
      a.validate = (true, none) →
      latest_free_cash_flow cf = .ok fcf → 0 < fcf →
      ∃ (r : ValuationResult) (ev : ℚ),
        calculate_fair_value cf nd sh a = .ok (some r) ∧
        r.enterprise_value = some ev ∧ 0 < ev := by
  intro cf nd sh a fcf hv hf hfcf
  obtain ⟨⟨hd1, hd2⟩, ⟨hg1, hg2⟩, ⟨ht1, ht2⟩, ⟨hy1, hy2⟩, hlt⟩ := validConditions_of_validate hv
  have hdr : (0:ℚ) < 1 + a.discount_rate := by linarith
  have hgr : (0:ℚ) < 1 + a.growth_rate := by linarith
  have htr : (0:ℚ) < 1 + a.terminal_growth_rate := by linarith
  have hsub : (0:ℚ) < a.discount_rate - a.terminal_growth_rate := by linarith
  have heval := cfv_eval cf nd sh a fcf hf hy1 (ne_of_gt hsub) (ne_of_gt hdr)
  refine ⟨_, enterpriseValueFormula fcf a, heval, rfl, ?_⟩
  unfold enterpriseValueFormula
  have hn0 : a.projection_years.toNat ≠ 0 := by omega
  have hsum : 0 < ((List.range a.projection_years.toNat).map
      (fun i => fcf * (1 + a.growth_rate) ^ (i+1) / (1 + a.discount_rate) ^ (i+1))).sum := by
    apply sum_range_map_pos _ _ hn0
    intro i _
    exact div_pos (mul_pos hfcf (pow_pos hgr _)) (pow_pos hdr _)
  have hterm : 0 < fcf * (1 + a.growth_rate) ^ a.projection_years.toNat *
      (1 + a.terminal_growth_rate) / (a.discount_rate - a.terminal_growth_rate) /
      (1 + a.discount_rate) ^ a.projection_years.toNat :=
    div_pos (div_pos (mul_pos (mul_pos hfcf (pow_pos hgr _)) htr) hsub) (pow_pos hdr _)
  linarith

/-- C3 witness: default assumptions on the sample cash-flow table. -/
theorem c3_positive_enterprise_value_witness :
    DcfAssumptions.defaults.validate = (true, none) ∧
    latest_free_cash_flow (some sampleCashflow) = .ok 100 ∧ (0:ℚ) < 100 ∧
    ∃ (r : ValuationResult) (ev : ℚ),
      calculate_fair_value (some sampleCashflow) none none DcfAssumptions.defaults =
        .ok (some r) ∧ r.enterprise_value = some ev ∧ 0 < ev := by
  have hv : DcfAssumptions.defaults.validate = (true, none) := by
    rw [validate_eq_true_none_iff]
    unfold validConditions DcfAssumptions.defaults
    norm_num
  exact ⟨hv, sampleCashflow_fcf, by norm_num,
    c3_positive_enterprise_value (some sampleCashflow) none none DcfAssumptions.defaults 100
      hv sampleCashflow_fcf (by norm_num)⟩

/-- C4 (amended): with a strictly positive latest Free Cash Flow and two
validated assumption sets that agree except for the growth rate, the
enterprise value is strictly increasing in the growth rate.  (Without the
positivity/validity restriction the original claim is false: a negative FCF
reverses the inequality.) -/
theorem c4_growth_monotonicity :
    ∀ (cf : Option Frame) (nd sh : Option ℚ) (a₁ a₂ : DcfAssumptions) (fcf : ℚ),
      latest_free_cash_flow cf = .ok fcf → 0 < fcf →
      a₁.validate = (true, none) → a₂.validate = (true, none) →
      a₁.discount_rate = a₂.discount_rate →
      a₁.terminal_growth_rate = a₂.terminal_growth_rate →
      a₁.projection_years = a₂.projection_years →
      a₁.growth_rate < a₂.growth_rate →
      ∃ (r₁ r₂ : ValuationResult) (ev₁ ev₂ : ℚ),
        calculate_fair_value cf nd sh a₁ = .ok (some r₁) ∧
        calculate_fair_value cf nd sh a₂ = .ok (some r₂) ∧
        r₁.enterprise_value = some ev₁ ∧ r₂.enterprise_value = some ev₂ ∧
        ev₁ < ev₂ := by
  intro cf nd sh a₁ a₂ fcf hf hfcf hv₁ hv₂ hdeq hteq hyeq hglt
  obtain ⟨⟨hd1, hd2⟩, ⟨hg1, hg2⟩, ⟨ht1, ht2⟩, ⟨hy1, hy2⟩, hlt⟩ := validConditions_of_validate hv₁
  obtain ⟨⟨hd1', hd2'⟩, ⟨hg1', hg2'⟩, ⟨ht1', ht2'⟩, ⟨hy1', hy2'⟩, hlt'⟩ :=
    validConditions_of_validate hv₂
  have hdr : (0:ℚ) < 1 + a₁.discount_rate := by linarith
  have hsub : (0:ℚ) < a₁.discount_rate - a₁.terminal_growth_rate := by linarith
  have heval₁ := cfv_eval cf nd sh a₁ fcf hf hy1 (ne_of_gt hsub) (ne_of_gt hdr)
  have hsub' : (0:ℚ) < a₂.discount_rate - a₂.terminal_growth_rate := by
    rw [← hdeq, ← hteq]; exact hsub
  have hdr' : (0:ℚ) < 1 + a₂.discount_rate := by rw [← hdeq]; exact hdr
  have heval₂ := cfv_eval cf nd sh a₂ fcf hf hy1' (ne_of_gt hsub') (ne_of_gt hdr')
  refine ⟨_, _, enterpriseValueFormula fcf a₁, enterpriseValueFormula fcf a₂,
    heval₁, heval₂, rfl, rfl, ?_⟩
  rcases a₁ with ⟨d₁, g₁, t₁, y₁⟩
  rcases a₂ with ⟨d₂, g₂, t₂, y₂⟩
  simp only at hdeq hteq hyeq hglt hdr hsub hg1 hg1' hg2' hy1
  subst hdeq hteq hyeq
  unfold enterpriseValueFormula
  simp only
  have hn0 : y₁.toNat ≠ 0 := by omega
  have hgpos : (0:ℚ) ≤ 1 + g₁ := by linarith
  have hglt1 : (1:ℚ) + g₁ < 1 + g₂ := by linarith
  have hsum : ((List.range y₁.toNat).map
        (fun i => fcf * (1 + g₁) ^ (i+1) / (1 + d₁) ^ (i+1))).sum <
      ((List.range y₁.toNat).map
        (fun i => fcf * (1 + g₂) ^ (i+1) / (1 + d₁) ^ (i+1))).sum := by
    apply sum_range_map_lt _ _ _ hn0
    intro i _
    exact div_lt_div_same_denom
      (mul_lt_mul_of_pos_left (pow_lt_pow_left₀ hglt1 hgpos (Nat.succ_ne_zero i)) hfcf)
      (pow_pos hdr _)
  have hterm : fcf * (1 + g₁) ^ y₁.toNat * (1 + t₁) / (d₁ - t₁) / (1 + d₁) ^ y₁.toNat <
      fcf * (1 + g₂) ^ y₁.toNat * (1 + t₁) / (d₁ - t₁) / (1 + d₁) ^ y₁.toNat := by
    apply div_lt_div_same_denom _ (pow_pos hdr _)
    apply div_lt_div_same_denom _ hsub
    have htpos : (0:ℚ) < 1 + t₁ := by linarith
    exact mul_lt_mul_of_pos_right
      (mul_lt_mul_of_pos_left (pow_lt_pow_left₀ hglt1 hgpos hn0) hfcf) htpos
  linarith

/-- A one-row cash-flow table with a strictly negative Free Cash Flow. -/
def negCashflow : Frame where
  rows := ["Free Cash Flow"]
  cols := [ColLabel.date 20241231 "2024-12-31"]
  cell := fun r c =>
    if r = "Free Cash Flow" ∧ c = ColLabel.date 20241231 "2024-12-31" then some (-100)
    else none

lemma negCashflow_fcf : latest_free_cash_flow (some negCashflow) = .ok (-100) := by
  simp [latest_free_cash_flow, latest_period_column, negCashflow,
    Frame.isEmptyFrame, bestDated, parseDate]

/-- C4 counterexample: with a negative latest FCF (-100), discount rate 3 >
terminal growth 0 in both scenarios, raising the growth rate from 0 to 1
strictly DECREASES the enterprise value (-100/3 down to -200/3), so the
original unrestricted monotonicity claim is false. -/
theorem c4_counterexample :
    calculate_fair_value (some negCashflow) none none ⟨3, 0, 0, 1⟩ =
      .ok (some ⟨some (-100/3), some (-100/3), none⟩) ∧
    calculate_fair_value (some negCashflow) none none ⟨3, 1, 0, 1⟩ =
      .ok (some ⟨some (-200/3), some (-200/3), none⟩) ∧
    ((0:ℚ) < 3) ∧ ((0:ℚ) < 1) ∧ ¬((-100/3 : ℚ) < -200/3) := by
  have h₁ := cfv_eval (some negCashflow) none none ⟨3, 0, 0, 1⟩ (-100)
    negCashflow_fcf (by norm_num) (by norm_num) (by norm_num)
  have h₂ := cfv_eval (some negCashflow) none none ⟨3, 1, 0, 1⟩ (-100)
    negCashflow_fcf (by norm_num) (by norm_num) (by norm_num)
  rw [h₁, h₂]
  norm_num [enterpriseValueFormula, equityValueOf, fairValueOf, List.range_succ]

/-- C4 witness (for the amended theorem): default assumptions versus the same
assumptions with growth 4% on the positive sample cash flow. -/
theorem c4_growth_monotonicity_witness :
    ∃ (r₁ r₂ : ValuationResult) (ev₁ ev₂ : ℚ),
      calculate_fair_value (some sampleCashflow) none none ⟨1/10, 3/100, 1/50, 5⟩ =
        .ok (some r₁) ∧
      calculate_fair_value (some sampleCashflow) none none ⟨1/10, 4/100, 1/50, 5⟩ =
        .ok (some r₂) ∧
      r₁.enterprise_value = some ev₁ ∧ r₂.enterprise_value = some ev₂ ∧
      ev₁ < ev₂ := by
  apply c4_growth_monotonicity (some sampleCashflow) none none
    ⟨1/10, 3/100, 1/50, 5⟩ ⟨1/10, 4/100, 1/50, 5⟩ 100 sampleCashflow_fcf
  · norm_num
  · rw [validate_eq_true_none_iff]; unfold validConditions; norm_num
  · rw [validate_eq_true_none_iff]; unfold validConditions; norm_num
  · rfl
  · rfl
  · rfl
  · norm_num

/-- The per-scenario `fair_value_per_share` values the grid loop collects, as
a filter over the scenario list. -/
def scenarioValues (cf : Option Frame) (nd sh : Option ℚ) (tg : ℚ) (y : ℤ)
    (ps : List (ℚ × ℚ)) : List ℚ :=
  ps.filterMap (fun p =>
    match calculate_fair_value cf nd sh ⟨p.1, p.2, tg, y⟩ with
    | .ok (some r) => r.fair_value_per_share
    | _ => none)

lemma runScenarios_ok (cf : Option Frame) (nd sh : Option ℚ) (tg : ℚ) (y : ℤ) :
    ∀ ps : List (ℚ × ℚ),
      (∀ p ∈ ps, ∃ res, calculate_fair_value cf nd sh ⟨p.1, p.2, tg, y⟩ = .ok res) →
      runScenarios cf nd sh tg y ps = .ok (scenarioValues cf nd sh tg y ps) := by
  intro ps
  induction ps with
  | nil => intro _; rfl
  | cons p rest ih =>
    intro h
    obtain ⟨res, hres⟩ := h p (List.mem_cons_self p rest)
    have hrest := ih (fun q hq => h q (List.mem_cons_of_mem _ hq))
    rcases p with ⟨d, g⟩
    simp only [runScenarios, hres, hrest, scenarioValues, List.filterMap_cons]
    rcases res with _ | r
    · simp [scenarioValues]
    · rcases hfv : r.fair_value_per_share with _ | v <;> simp [hfv, scenarioValues]

/-- Helper: a scenario that raises aborts the whole loop. -/
lemma runScenarios_cons_error (cf : Option Frame) (nd sh : Option ℚ) (tg : ℚ) (y : ℤ)
    (d g : ℚ) (rest : List (ℚ × ℚ)) (e : String)
    (h : calculate_fair_value cf nd sh ⟨d, g, tg, y⟩ = .error e) :
    runScenarios cf nd sh tg y ((d, g) :: rest) = .error e := by
  simp [runScenarios, h]

/-- Helper: `calculate_fair_value` raises `ZeroDivisionError` whenever the
FCF lookup succeeds, the horizon is at least one year, and the discount rate
equals the terminal growth rate. -/
lemma cfv_zero_denom (cf : Option Frame) (nd sh : Option ℚ) (a : DcfAssumptions) (fcf : ℚ)
    (hf : latest_free_cash_flow cf = .ok fcf)
    (hn : 1 ≤ a.projection_years)
    (hd : a.discount_rate - a.terminal_growth_rate = 0) :
    calculate_fair_value cf nd sh a = .error "ZeroDivisionError" := by
  have hn0 : a.projection_years.toNat ≠ 0 := by omega
  have hlast := range_map_getLast?
    (fun i => fcf * (1 + a.growth_rate) ^ (i + 1)) a.projection_years.toNat hn0
  simp only [calculate_fair_value, hf, hlast, if_pos hd]

/-- C2 (amended): `calculate_fair_value_range` performs no validity check on
the nine grid combinations.  Provided no combination raises, it evaluates
`calculate_fair_value` on all nine, collects exactly the non-null
`fair_value_per_share` values, and returns `(min, max)` of them — null iff
every scenario produced null.  (The counterexample shows that a combination
with discount rate equal to terminal growth is NOT skipped: its division by
zero propagates and aborts the whole range computation.) -/
theorem c2_range_spec :
    ∀ (cf : Option Frame) (nd sh : Option ℚ) (a : DcfAssumptions) (dv gv : ℚ),
      (∀ p ∈ scenarioPairs (discountValues a dv) (growthValues a gv),
        ∃ res, calculate_fair_value cf nd sh
          ⟨p.1, p.2, a.terminal_growth_rate, a.projection_years⟩ = .ok res) →
      calculate_fair_value_range cf nd sh a dv gv =
        .ok (match scenarioValues cf nd sh a.terminal_growth_rate a.projection_years
                (scenarioPairs (discountValues a dv) (growthValues a gv)) with
             | [] => none
             | v :: vs => some (vs.foldl min v, vs.foldl max v)) := by
  intro cf nd sh a dv gv h
  simp only [calculate_fair_value_range,
    runScenarios_ok cf nd sh a.terminal_growth_rate a.projection_years _ h]
  cases hsv : scenarioValues cf nd sh a.terminal_growth_rate a.projection_years
      (scenarioPairs (discountValues a dv) (growthValues a gv)) <;> simp

/-- C2 counterexample: at base discount 4%, terminal growth 2% and discount
variation 2%, the first grid combination has discount rate 2% equal to the
terminal growth rate; instead of being skipped it raises a division error
that aborts the whole range computation — no `(min, max)` over the other
combinations is returned. -/
theorem c2_counterexample :
    calculate_fair_value_range (some sampleCashflow) none (some 1000000)
      ⟨1/25, 3/100, 1/50, 5⟩ (1/50) (1/100) = .error "ZeroDivisionError" := by
  have hcfv : calculate_fair_value (some sampleCashflow) none (some 1000000)
      ⟨1/25 - 1/50, 3/100 - 1/100, 1/50, 5⟩ = .error "ZeroDivisionError" :=
    cfv_zero_denom _ _ _ _ 100 sampleCashflow_fcf (by norm_num) (by norm_num)
  simp only [calculate_fair_value_range, discountValues, growthValues, scenarioPairs,
    List.flatMap_cons, List.map_cons, List.map_nil, List.flatMap_nil, List.append_nil,
    List.cons_append, List.nil_append]
  rw [runScenarios_cons_error _ _ _ _ _ _ _ _ _ hcfv]

/-- C2 witness: a one-year grid around discount 10%, terminal growth 0, in
which every combination is safe, so the range call succeeds. -/
theorem c2_range_spec_witness :
    ∃ out, calculate_fair_value_range (some sampleCashflow) none (some 4)
      ⟨1/10, 0, 0, 1⟩ (1/100) (1/100) = .ok out := by
  refine ⟨_, c2_range_spec (some sampleCashflow) none (some 4) ⟨1/10, 0, 0, 1⟩
    (1/100) (1/100) ?_⟩
  have hgen : ∀ d g : ℚ, d ≠ 0 → (1:ℚ) + d ≠ 0 →
      ∃ res, calculate_fair_value (some sampleCashflow) none (some 4) ⟨d, g, 0, 1⟩ =
        .ok res :=
    fun d g hd h1 =>
      ⟨_, cfv_eval (some sampleCashflow) none (some 4) ⟨d, g, 0, 1⟩ 100
        sampleCashflow_fcf (by norm_num) (by simpa using hd) h1⟩
  intro p hp
  simp only [scenarioPairs, discountValues, growthValues, List.flatMap_cons,
    List.map_cons, List.map_nil, List.flatMap_nil, List.append_nil,
    List.cons_append, List.nil_append] at hp
  fin_cases hp <;> exact hgen _ _ (by norm_num) (by norm_num)

set_option maxHeartbeats 1000000 in
lemma validationErrors_eq_rules (a : DcfAssumptions) :
    validationErrors a =
      (validationRules a).filterMap (fun p => if p.1 then none else some p.2) := by
  unfold validationErrors validationRules
  simp only [List.filterMap_cons, List.filterMap_nil, decide_eq_true_eq]
  split_ifs <;> rfl

/-- C8: `DcfAssumptions.validate` is a pure function whose failure message is
the space-joined list of the messages of exactly the violated rules (all of
them, in rule order — not just the first); it succeeds iff all five rules
hold.  In particular the pair (discount 2%, terminal growth 2%) with
in-range growth and horizon fails with precisely the message naming the
discount-rate/terminal-growth relationship. -/
theorem c8_validate_characterisation :
    (∀ a : DcfAssumptions,
      (a.validate.1 = true ↔ validConditions a) ∧
      a.validate.2 = (if validConditions a then none
        else some (String.intercalate " "
          ((validationRules a).filterMap (fun p => if p.1 then none else some p.2))))) ∧
    DcfAssumptions.validate ⟨1/50, 3/100, 1/50, 5⟩ =
      (false, some "Discount rate must be greater than terminal growth rate.") := by
  constructor
  · intro a
    refine ⟨validate_fst_iff a, ?_⟩
    rw [← validationErrors_eq_rules]
    by_cases hv : validConditions a
    · rw [if_pos hv]
      rw [(validate_eq_true_none_iff a).mpr hv]
    · rw [if_neg hv]
      have hne : validationErrors a ≠ [] := fun hnil =>
        hv ((validationErrors_eq_nil_iff a).mp hnil)
      unfold DcfAssumptions.validate
      rw [if_neg (by simpa [List.isEmpty_iff] using hne)]
  · have herr : validationErrors ⟨1/50, 3/100, 1/50, 5⟩ =
        ["Discount rate must be greater than terminal growth rate."] := by
      unfold validationErrors
      norm_num
    unfold DcfAssumptions.validate
    rw [herr]
    rfl

/-- C8 witness: the characterisation instantiated at the default assumptions
(which satisfy every rule). -/
theorem c8_validate_characterisation_witness :
    (DcfAssumptions.defaults.validate.1 = true ↔ validConditions DcfAssumptions.defaults) ∧
    DcfAssumptions.defaults.validate.2 = (if validConditions DcfAssumptions.defaults then none
      else some (String.intercalate " "
        ((validationRules DcfAssumptions.defaults).filterMap
          (fun p => if p.1 then none else some p.2)))) :=
  c8_validate_characterisation.1 DcfAssumptions.defaults

lemma bestDated_none : ∀ (cols : List ColLabel) (acc : Option (ColLabel × ℤ)),
    bestDated cols acc = none ↔ acc = none ∧ ∀ c ∈ cols, parseDate c = none
  | [], acc => by simp [bestDated]
  | c :: rest, acc => by
    rcases hp : parseDate c with _ | d
    · rw [show bestDated (c :: rest) acc = bestDated rest acc from by
        simp [bestDated, hp]]
      rw [bestDated_none rest acc]
      simp [List.forall_mem_cons, hp]
    · rcases acc with _ | ⟨b, m⟩
      · rw [show bestDated (c :: rest) none = bestDated rest (some (c, d)) from by
          simp [bestDated, hp]]
        rw [bestDated_none rest (some (c, d))]
        simp [List.forall_mem_cons, hp]
      · by_cases hlt : m < d
        · rw [show bestDated (c :: rest) (some (b, m)) = bestDated rest (some (c, d)) from by
            simp [bestDated, hp, hlt]]
          rw [bestDated_none rest (some (c, d))]
          simp [List.forall_mem_cons, hp]
        · rw [show bestDated (c :: rest) (some (b, m)) = bestDated rest (some (b, m)) from by
            simp [bestDated, hp, hlt]]
          rw [bestDated_none rest (some (b, m))]
          simp [List.forall_mem_cons, hp]

lemma bestDated_some : ∀ (cols : List ColLabel) (acc : Option (ColLabel × ℤ))
    (c : ColLabel) (d : ℤ),
    (∀ b m, acc = some (b, m) → parseDate b = some m) →
    bestDated cols acc = some (c, d) →
    parseDate c = some d ∧
    (c ∈ cols ∨ acc = some (c, d)) ∧
    (∀ c' ∈ cols, ∀ d', parseDate c' = some d' → d' ≤ d) ∧
    (∀ b m, acc = some (b, m) → m ≤ d)
  | [], acc, c, d => by
    intro hinv h
    simp only [bestDated] at h
    subst h
    exact ⟨hinv c d rfl, Or.inr rfl, by simp, fun b m hbm => by
      simp only [Option.some.injEq, Prod.mk.injEq] at hbm
      omega⟩
  | c₀ :: rest, acc, c, d => by
    intro hinv h
    rcases hp : parseDate c₀ with _ | d₀
    · rw [show bestDated (c₀ :: rest) acc = bestDated rest acc from by
        simp [bestDated, hp]] at h
      obtain ⟨h1, h2, h3, h4⟩ := bestDated_some rest acc c d hinv h
      refine ⟨h1, ?_, ?_, h4⟩
      · rcases h2 with hm | he
        · exact Or.inl (List.mem_cons_of_mem _ hm)
        · exact Or.inr he
      · intro c' hc' d' hpd'
        rcases List.mem_cons.mp hc' with rfl | hm
        · rw [hp] at hpd'
          exact absurd hpd' (by simp)
        · exact h3 c' hm d' hpd'
    · rcases acc with _ | ⟨b₀, m₀⟩
      · rw [show bestDated (c₀ :: rest) none = bestDated rest (some (c₀, d₀)) from by
          simp [bestDated, hp]] at h
        obtain ⟨h1, h2, h3, h4⟩ := bestDated_some rest (some (c₀, d₀)) c d
          (fun b m hbm => by
            simp only [Option.some.injEq, Prod.mk.injEq] at hbm
            rw [← hbm.1, ← hbm.2]
            exact hp) h
        have hd₀ : d₀ ≤ d := h4 c₀ d₀ rfl
        refine ⟨h1, ?_, ?_, by simp⟩
        · rcases h2 with hm | he
          · exact Or.inl (List.mem_cons_of_mem _ hm)
          · simp only [Option.some.injEq, Prod.mk.injEq] at he
            exact Or.inl (by rw [he.1]; exact List.mem_cons_self _ _)
        · intro c' hc' d' hpd'
          rcases List.mem_cons.mp hc' with rfl | hm
          · rw [hp] at hpd'
            simp only [Option.some.injEq] at hpd'
            omega
          · exact h3 c' hm d' hpd'
      · by_cases hlt : m₀ < d₀
        · rw [show bestDated (c₀ :: rest) (some (b₀, m₀)) = bestDated rest (some (c₀, d₀))
              from by simp [bestDated, hp, hlt]] at h
          obtain ⟨h1, h2, h3, h4⟩ := bestDated_some rest (some (c₀, d₀)) c d
            (fun b m hbm => by
              simp only [Option.some.injEq, Prod.mk.injEq] at hbm
              rw [← hbm.1, ← hbm.2]
              exact hp) h
          have hd₀ : d₀ ≤ d := h4 c₀ d₀ rfl
          refine ⟨h1, ?_, ?_, ?_⟩
          · rcases h2 with hm | he
            · exact Or.inl (List.mem_cons_of_mem _ hm)
            · simp only [Option.some.injEq, Prod.mk.injEq] at he
              exact Or.inl (by rw [he.1]; exact List.mem_cons_self _ _)
          · intro c' hc' d' hpd'
            rcases List.mem_cons.mp hc' with rfl | hm
            · rw [hp] at hpd'
              simp only [Option.some.injEq] at hpd'
              omega
            · exact h3 c' hm d' hpd'
          · intro b m hbm
            simp only [Option.some.injEq, Prod.mk.injEq] at hbm
            omega
        · rw [show bestDated (c₀ :: rest) (some (b₀, m₀)) = bestDated rest (some (b₀, m₀))
              from by simp [bestDated, hp, hlt]] at h
          obtain ⟨h1, h2, h3, h4⟩ := bestDated_some rest (some (b₀, m₀)) c d
            (fun b m hbm => by
              simp only [Option.some.injEq, Prod.mk.injEq] at hbm
              rw [← hbm.1, ← hbm.2]
              exact hinv b₀ m₀ rfl) h
          have hm₀ : m₀ ≤ d := h4 b₀ m₀ rfl
          refine ⟨h1, ?_, ?_, ?_⟩
          · rcases h2 with hm | he
            · exact Or.inl (List.mem_cons_of_mem _ hm)
            · exact Or.inr he
          · intro c' hc' d' hpd'
            rcases List.mem_cons.mp hc' with rfl | hm
            · rw [hp] at hpd'
              simp only [Option.some.injEq] at hpd'
              omega
            · exact h3 c' hm d' hpd'
          · intro b m hbm
            simp only [Option.some.injEq, Prod.mk.injEq] at hbm
            omega

/-- C5: for every non-empty balance sheet, the latest-column policy picks the
column with the maximum parsed date when at least one column label parses
(regardless of its position), and the first column otherwise; its label
string (the ISO rendering of the parsed date, or the raw label) is what
`extract_fundamentals` records in `balance_sheet_as_of`. -/
theorem c5_latest_column_selection :
    (∀ bs : Frame, bs.rows ≠ [] → bs.cols ≠ [] →
      ((∃ c ∈ bs.cols, (parseDate c).isSome) →
        ∃ c d, (latest_column_info (some bs)).1 = some c ∧
          (latest_column_info (some bs)).2 = some (labelStr c) ∧
          parseDate c = some d ∧ c ∈ bs.cols ∧
          (∀ c' ∈ bs.cols, ∀ d', parseDate c' = some d' → d' ≤ d)) ∧
      ((∀ c ∈ bs.cols, parseDate c = none) →
        (latest_column_info (some bs)).1 = bs.cols.head? ∧
        (latest_column_info (some bs)).2 = bs.cols.head?.map labelStr)) ∧
    (∀ (info : String → Option PyVal) (bs : Frame) (pulled : String)
        (snap : FundamentalsSnapshot),
      bs.rows ≠ [] → bs.cols ≠ [] →
      extract_fundamentals info (some bs) pulled = .ok snap →
      snap.balance_sheet_as_of = (latest_column_info (some bs)).2) := by
  constructor
  · intro bs hr hc
    have hne : bs.isEmptyFrame = false := by
      simp [Frame.isEmptyFrame, hr, hc]
    constructor
    · intro hex
      rcases hb : bestDated bs.cols none with _ | ⟨c, d⟩
      · obtain ⟨_, hall⟩ := (bestDated_none bs.cols none).mp hb
        obtain ⟨c, hcmem, hcs⟩ := hex
        rw [hall c hcmem] at hcs
        simp at hcs
      · obtain ⟨h1, _, h3, _⟩ := bestDated_some bs.cols none c d (by simp) hb
        refine ⟨c, d, ?_, ?_, h1, ?_, h3⟩
        · simp [latest_column_info, hne, hb]
        · simp [latest_column_info, hne, hb]
        · rcases (bestDated_some bs.cols none c d (by simp) hb).2.1 with hm | he
          · exact hm
          · simp at he
    · intro hall
      have hb : bestDated bs.cols none = none :=
        (bestDated_none bs.cols none).mpr ⟨rfl, hall⟩
      constructor <;> simp [latest_column_info, hne, hb]
  · intro info bs pulled snap hr hc h
    have hne : bs.isEmptyFrame = false := by
      simp [Frame.isEmptyFrame, hr, hc]
    simp only [extract_fundamentals] at h
    rcases hs : resolve_shares info with e | trip <;> simp only [hs] at h
    · simp at h
    · simp only [hne, Bool.false_eq_true, if_false, Except.ok.injEq] at h
      rw [← h]

/-- The unsorted three-period balance sheet of the repository's test
fixture: columns 2022-12-31, 2024-12-31, 2023-12-31 in that order. -/
def multiPeriodBS : Frame where
  rows := ["Cash And Cash Equivalents", "Short Long Term Debt", "Long Term Debt"]
  cols := [ColLabel.date 20221231 "2022-12-31", ColLabel.date 20241231 "2024-12-31",
           ColLabel.date 20231231 "2023-12-31"]
  cell := fun r c =>
    if c = ColLabel.date 20241231 "2024-12-31" then
      if r = "Cash And Cash Equivalents" then some 120
      else if r = "Short Long Term Debt" then some 30
      else if r = "Long Term Debt" then some 90
      else none
    else if c = ColLabel.date 20231231 "2023-12-31" then
      if r = "Cash And Cash Equivalents" then some 90
      else if r = "Short Long Term Debt" then some 20
      else if r = "Long Term Debt" then some 70
      else none
    else if c = ColLabel.date 20221231 "2022-12-31" then
      if r = "Cash And Cash Equivalents" then some 50
      else if r = "Short Long Term Debt" then some 10
      else if r = "Long Term Debt" then some 40
      else none
    else none

/-- C5 witness: on the unsorted fixture the 2024-12-31 column (maximum date,
middle position) is selected. -/
theorem c5_latest_column_selection_witness :
    ∃ c d, (latest_column_info (some multiPeriodBS)).1 = some c ∧
      (latest_column_info (some multiPeriodBS)).2 = some (labelStr c) ∧
      parseDate c = some d ∧ c ∈ multiPeriodBS.cols ∧
      (∀ c' ∈ multiPeriodBS.cols, ∀ d', parseDate c' = some d' → d' ≤ d) :=
  (c5_latest_column_selection.1 multiPeriodBS
      (by simp [multiPeriodBS]) (by simp [multiPeriodBS])).1
    ⟨ColLabel.date 20221231 "2022-12-31", by simp [multiPeriodBS], by simp [parseDate]⟩

lemma resolve_shares_str_error :
    resolve_shares (fun k => if k = "sharesOutstanding"
      then some (PyVal.str "N/A") else none) = .error "TypeError" := by
  simp [resolve_shares, sharesCond1, pyTruthy, pyGtZero]

/-- C6 counterexample: an `info` mapping whose `sharesOutstanding` entry is
the (truthy) string `"N/A"` makes `extract_fundamentals` raise `TypeError`
at the comparison `shares > 0`, so the function is not total on arbitrary
info mappings. -/
theorem c6_counterexample :
    extract_fundamentals
      (fun k => if k = "sharesOutstanding" then some (PyVal.str "N/A") else none)
      none "2025-01-01 00:00:00 UTC" = .error "TypeError" := by
  simp only [extract_fundamentals, resolve_shares_str_error]

/-- C6 (amended): `extract_fundamentals` is total — returning a snapshot, and
degrading any unresolved balance-sheet field rather than failing — for every
balance-sheet input (including null/empty) and every info mapping whose
`sharesOutstanding` and `impliedSharesOutstanding` entries are numeric when
present; a truthy string in either entry instead raises `TypeError` from the
`shares > 0` / `shares <= 0` comparison. -/
theorem c6_total_on_numeric_info :
    ∀ (info : String → Option PyVal) (bs : Option Frame) (pulled : String),
      (∀ v, info "sharesOutstanding" = some v → ∃ q, v = PyVal.num q) →
      (∀ v, info "impliedSharesOutstanding" = some v → ∃ q, v = PyVal.num q) →
      ∃ snap, extract_fundamentals info bs pulled = .ok snap := by
  intro info bs pulled h1 h2
  have hc1 : ∃ b, sharesCond1 (info "sharesOutstanding") = .ok b := by
    rcases hs0 : info "sharesOutstanding" with _ | v
    · exact ⟨_, rfl⟩
    · obtain ⟨q, rfl⟩ := h1 v hs0
      show ∃ b, (if pyTruthy (PyVal.num q) = true then pyGtZero (PyVal.num q)
        else Except.ok false) = Except.ok b
      by_cases ht : pyTruthy (PyVal.num q) = true
      · rw [if_pos ht]
        exact ⟨_, rfl⟩
      · rw [if_neg ht]
        exact ⟨_, rfl⟩
  obtain ⟨b1, hb1⟩ := hc1
  have hnum : ∀ v, (sharesFallback (info "sharesOutstanding")
      (info "impliedSharesOutstanding") b1).1 = some v → ∃ q, v = PyVal.num q := by
    intro v hv
    cases b1
    · rcases hsi : info "impliedSharesOutstanding" with _ | w
      · rw [hsi] at hv
        rw [show sharesFallback (info "sharesOutstanding") none false =
            (info "sharesOutstanding", none) from by simp [sharesFallback]] at hv
        exact h1 v hv
      · rw [hsi] at hv
        by_cases htw : pyTruthy w = true
        · rw [show sharesFallback (info "sharesOutstanding") (some w) false =
              (some w, some "impliedSharesOutstanding") from by
            simp [sharesFallback, htw]] at hv
          simp only [Option.some.injEq] at hv
          subst hv
          exact h2 _ hsi
        · rw [show sharesFallback (info "sharesOutstanding") (some w) false =
              (info "sharesOutstanding", none) from by simp [sharesFallback, htw]] at hv
          exact h1 v hv
    · rw [show sharesFallback (info "sharesOutstanding")
          (info "impliedSharesOutstanding") true =
          (info "sharesOutstanding", some "sharesOutstanding") from by
        simp [sharesFallback]] at hv
      exact h1 v hv
  have hc2 : ∃ b, sharesCond2 (sharesFallback (info "sharesOutstanding")
      (info "impliedSharesOutstanding") b1).1 = .ok b := by
    rcases hsh : (sharesFallback (info "sharesOutstanding")
        (info "impliedSharesOutstanding") b1).1 with _ | v
    · exact ⟨_, rfl⟩
    · obtain ⟨q, rfl⟩ := hnum v hsh
      show ∃ b, (if pyTruthy (PyVal.num q) = true then pyLeZero (PyVal.num q)
        else Except.ok true) = Except.ok b
      by_cases ht : pyTruthy (PyVal.num q) = true
      · rw [if_pos ht]
        exact ⟨_, rfl⟩
      · rw [if_neg ht]
        exact ⟨_, rfl⟩
  obtain ⟨b2, hb2⟩ := hc2
  have hok : ∃ t, resolve_shares info = .ok t := by
    unfold resolve_shares
    simp only [hb1, hb2]
    by_cases hcond2 : b2 = true
    · rw [if_pos hcond2]
      exact ⟨_, rfl⟩
    · rw [if_neg hcond2]
      exact ⟨_, rfl⟩
  obtain ⟨t, ht⟩ := hok
  simp only [extract_fundamentals]
  rw [ht]
  exact ⟨_, rfl⟩

/-- C6 witness: a numeric `sharesOutstanding` entry and a missing balance
sheet yield a snapshot without raising. -/
theorem c6_total_on_numeric_info_witness :
    ∃ snap, extract_fundamentals
      (fun k => if k = "sharesOutstanding" then some (PyVal.num 1000000) else none)
      none "2025-01-01 00:00:00 UTC" = .ok snap :=
  c6_total_on_numeric_info _ none _
    (fun v hv => ⟨1000000, by simp at hv; exact hv.symm⟩)
    (fun v hv => absurd hv (by simp))

lemma resolve_cash_cases (bs : Option Frame) (col : Option ColLabel) :
    (∃ v f, resolve_cash bs col = (some v, some f)) ∨ resolve_cash bs col = (none, none) := by
  unfold resolve_cash
  rcases h : firstMatch bs col BALANCE_SHEET_CASH_FIELDS with _ | ⟨v, f⟩
  · exact Or.inr rfl
  · exact Or.inl ⟨v, f, rfl⟩

lemma resolve_total_debt_cases (bs : Option Frame) (col : Option ColLabel) :
    (∃ v f, resolve_total_debt bs col = (some v, some f)) ∨
      resolve_total_debt bs col = (none, none) := by
  unfold resolve_total_debt
  rcases h : firstMatch bs col BALANCE_SHEET_TOTAL_DEBT_FIELDS with _ | ⟨v, f⟩
  · rcases hl : (firstMatch bs col LONG_TERM_DEBT_FIELDS).map (fun p => p.1) with _ | lv <;>
      rcases hs : (firstMatch bs col SHORT_TERM_DEBT_FIELDS).map (fun p => p.1) with _ | sv <;>
        simp [hl, hs, Prod.ext_iff]
  · exact Or.inl ⟨v, f, rfl⟩

lemma mem_ite_singleton {c : Prop} [Decidable c] (x y : String) :
    (x ∈ (if c then [y] else [])) ↔ (c ∧ x = y) := by
  by_cases h : c <;> simp [h]

/-- C10: every snapshot `extract_fundamentals` returns links provenance,
defaults and tags consistently: `cash_source` is null iff
`ASSUMED_CASH_ZERO` is tagged (and then cash is 0), `debt_source` is null
iff `ASSUMED_DEBT_ZERO` is tagged (and then total debt is 0), and
`net_debt` always equals `total_debt - cash_and_equivalents`. -/
theorem c10_provenance_tags :
    ∀ (info : String → Option PyVal) (bs : Option Frame) (pulled : String)
      (snap : FundamentalsSnapshot),
      extract_fundamentals info bs pulled = .ok snap →
      (snap.cash_source = none ↔ "ASSUMED_CASH_ZERO" ∈ snap.note_tags) ∧
      (snap.cash_source = none → snap.cash_and_equivalents = some 0) ∧
      (snap.debt_source = none ↔ "ASSUMED_DEBT_ZERO" ∈ snap.note_tags) ∧
      (snap.debt_source = none → snap.total_debt = some 0) ∧
      ∃ c t, snap.cash_and_equivalents = some c ∧ snap.total_debt = some t ∧
        snap.net_debt = some (t - c) := by
  intro info bs pulled snap h
  simp only [extract_fundamentals] at h
  rcases hs : resolve_shares info with e | trip <;> simp only [hs] at h
  · simp at h
  · simp only [Except.ok.injEq] at h
    subst h
    rcases resolve_cash_cases bs (latest_column_info bs).1 with ⟨cv, cf, hrc⟩ | hrc <;>
      rcases resolve_total_debt_cases bs (latest_column_info bs).1 with ⟨dv, df, hrd⟩ | hrd <;>
        simp only [hrc, hrd] <;>
          simp [List.mem_append, mem_ite_singleton]

lemma countP_le_split (l : List ℚ) (x : ℚ) :
    l.countP (fun v => decide (v ≤ x)) =
      l.countP (fun v => decide (v < x)) + l.countP (fun v => decide (v = x)) := by
  induction l with
  | nil => simp
  | cons a rest ih =>
    by_cases h1 : a < x <;> by_cases h2 : a = x
    · rw [h2] at h1
      exact absurd h1 (lt_irrefl x)
    · simp [List.countP_cons, h1, h2, le_of_lt h1, ih]
      omega
    · simp [List.countP_cons, h1, h2, le_of_eq h2, ih]
      omega
    · have hle : ¬ a ≤ x := fun hle => (lt_or_eq_of_le hle).elim h1 h2
      simp [List.countP_cons, h1, h2, hle, ih]

lemma countP_pos_of_mem (l : List ℚ) (x : ℚ) (hx : x ∈ l) :
    0 < l.countP (fun v => decide (v = x)) :=
  List.countP_pos_iff.mpr ⟨x, hx, by simp⟩

lemma rankPctAvg_eq_min_max (vals : List ℚ) (x : ℚ) :
    rankPctAvg vals x = (rankPctMin vals x + rankPctMax vals x) / 2 := by
  unfold rankPctAvg rankPctMin rankPctMax
  rw [countP_le_split]
  push_cast
  ring

lemma rankPctAvg_lt (vals : List ℚ) (x y : ℚ) (hx : x ∈ vals) (hxy : x < y) :
    rankPctAvg vals x < rankPctAvg vals y := by
  unfold rankPctAvg
  have hn : (0:ℚ) < (vals.length : ℚ) := by
    exact_mod_cast List.length_pos.mpr (List.ne_nil_of_mem hx)
  apply div_lt_div_same_denom _ hn
  have hE : 0 < vals.countP (fun v => decide (v = x)) := countP_pos_of_mem vals x hx
  have hA : vals.countP (fun v => decide (v ≤ x)) ≤
      vals.countP (fun v => decide (v < y)) := by
    apply List.countP_mono_left
    intro a _ ha
    simp only [decide_eq_true_eq] at ha ⊢
    exact lt_of_le_of_lt ha hxy
  rw [countP_le_split] at hA
  have hA' : ((vals.countP (fun v => decide (v < x)) : ℚ) +
      (vals.countP (fun v => decide (v = x)) : ℚ)) ≤
      (vals.countP (fun v => decide (v < y)) : ℚ) := by exact_mod_cast hA
  have hE' : (1:ℚ) ≤ (vals.countP (fun v => decide (v = x)) : ℚ) := by exact_mod_cast hE
  have hEy : (0:ℚ) ≤ (vals.countP (fun v => decide (v = y)) : ℚ) := by positivity
  linarith

/-- C7 (amended): the screener's percentile scores use pandas' default
`average` tie convention, not `min`: each record's `quality_score` is the
midpoint of the min-convention and max-convention percentile ranks of its
ROE (so tied values receive the mean, not the lowest, rank of their tie
group); strictly higher ROE still gives a strictly higher score, tied ROE
gives equal scores; `growth_score` behaves identically on revenue growth,
and `stability_score` is one minus the same average-convention rank of
debt-to-equity (so higher leverage gives a strictly lower score). -/
theorem c7_rank_convention :
    (∀ (records : List ScreenerRecord) (r : ScreenerRecord) (x : ℚ),
      r.raw_roe = some x →
      qualityScore records r =
        (rankPctMin (roeValues records) x + rankPctMax (roeValues records) x) / 2) ∧
    (∀ (records : List ScreenerRecord) (r₁ r₂ : ScreenerRecord) (x y : ℚ),
      r₁.raw_roe = some x → r₂.raw_roe = some y → r₁ ∈ records → x < y →
      qualityScore records r₁ < qualityScore records r₂) ∧
    (∀ (records : List ScreenerRecord) (r₁ r₂ : ScreenerRecord) (x : ℚ),
      r₁.raw_roe = some x → r₂.raw_roe = some x →
      qualityScore records r₁ = qualityScore records r₂) ∧
    (∀ (records : List ScreenerRecord) (r : ScreenerRecord) (x : ℚ),
      r.raw_revenue_growth = some x →
      growthScore records r =
        (rankPctMin (growthValues' records) x + rankPctMax (growthValues' records) x) / 2) ∧
    (∀ (records : List ScreenerRecord) (r₁ r₂ : ScreenerRecord) (x y : ℚ),
      r₁.raw_revenue_growth = some x → r₂.raw_revenue_growth = some y →
      r₁ ∈ records → x < y →
      growthScore records r₁ < growthScore records r₂) ∧
    (∀ (records : List ScreenerRecord) (r : ScreenerRecord) (x : ℚ),
      r.raw_debt_to_equity = some x →
      stabilityScore records r =
        1 - (rankPctMin (d2eValues records) x + rankPctMax (d2eValues records) x) / 2) ∧
    (∀ (records : List ScreenerRecord) (r₁ r₂ : ScreenerRecord) (x y : ℚ),
      r₁.raw_debt_to_equity = some x → r₂.raw_debt_to_equity = some y →
      r₁ ∈ records → x < y →
      stabilityScore records r₂ < stabilityScore records r₁) := by
  refine ⟨?_, ?_, ?_, ?_, ?_, ?_, ?_⟩
  · intro records r x hx
    simp only [qualityScore, hx]
    exact rankPctAvg_eq_min_max _ _
  · intro records r₁ r₂ x y hx hy hmem hxy
    simp only [qualityScore, hx, hy]
    exact rankPctAvg_lt _ x y (List.mem_filterMap.mpr ⟨r₁, hmem, hx⟩) hxy
  · intro records r₁ r₂ x hx hy
    simp only [qualityScore, hx, hy]
  · intro records r x hx
    simp only [growthScore, hx]
    exact rankPctAvg_eq_min_max _ _
  · intro records r₁ r₂ x y hx hy hmem hxy
    simp only [growthScore, hx, hy]
    exact rankPctAvg_lt _ x y (List.mem_filterMap.mpr ⟨r₁, hmem, hx⟩) hxy
  · intro records r x hx
    simp only [stabilityScore, hx]
    rw [rankPctAvg_eq_min_max]
  · intro records r₁ r₂ x y hx hy hmem hxy
    simp only [stabilityScore, hx, hy]
    have := rankPctAvg_lt (d2eValues records) x y
      (List.mem_filterMap.mpr ⟨r₁, hmem, hx⟩) hxy
    linarith

/-- The tie fixture: two records with ROE 1 and one with ROE 2. -/
def sampleRecords : List ScreenerRecord :=
  [⟨0, some 1, none, none⟩, ⟨0, some 1, none, none⟩, ⟨0, some 2, none, none⟩]

/-- C7 counterexample: with ROE column [1, 1, 2] the screener gives the tied
records quality score 1/2 (pandas `average` convention), while the claimed
`min` convention would give 1/3 — so `quality_score` is not the
min-convention percentile rank. -/
theorem c7_counterexample :
    qualityScore sampleRecords ⟨0, some 1, none, none⟩ = 1/2 ∧
    rankPctMin (roeValues sampleRecords) 1 = 1/3 ∧
    qualityScore sampleRecords ⟨0, some 1, none, none⟩ ≠
      rankPctMin (roeValues sampleRecords) 1 := by
  norm_num [qualityScore, rankPctAvg, rankPctMin, roeValues, sampleRecords,
    List.filterMap_cons, List.filterMap_nil, List.countP_cons, List.countP_nil]

/-- C7 witness: the average-convention characterisation applied to the third
fixture record. -/
theorem c7_rank_convention_witness :
    qualityScore sampleRecords ⟨0, some 2, none, none⟩ =
      (rankPctMin (roeValues sampleRecords) 2 + rankPctMax (roeValues sampleRecords) 2) / 2 :=
  c7_rank_convention.1 sampleRecords ⟨0, some 2, none, none⟩ 2 rfl

/-- An info mapping with a numeric `sharesOutstanding` entry only. -/
def sampleInfo : String → Option PyVal := fun k =>
  if k = "sharesOutstanding" then some (PyVal.num 1000000) else none

lemma sampleInfo_resolve_shares :
    resolve_shares sampleInfo =
      .ok (some (PyVal.num 1000000), some "sharesOutstanding", []) := by
  norm_num [resolve_shares, sharesCond1, sharesCond2, sharesFallback, sampleInfo,
    pyTruthy, pyGtZero, pyLeZero]

lemma sampleInfo_extract :
    ∃ snap, extract_fundamentals sampleInfo none "2025-01-01 00:00:00 UTC" = .ok snap := by
  simp only [extract_fundamentals, sampleInfo_resolve_shares]
  exact ⟨_, rfl⟩

/-- C10 witness: the invariants instantiated on a missing balance sheet with
numeric shares. -/
theorem c10_provenance_tags_witness :
    ∃ snap, extract_fundamentals sampleInfo none "2025-01-01 00:00:00 UTC" = .ok snap ∧
      (snap.cash_source = none ↔ "ASSUMED_CASH_ZERO" ∈ snap.note_tags) ∧
      (snap.debt_source = none ↔ "ASSUMED_DEBT_ZERO" ∈ snap.note_tags) ∧
      ∃ c t, snap.cash_and_equivalents = some c ∧ snap.total_debt = some t ∧
        snap.net_debt = some (t - c) := by
  obtain ⟨snap, hsnap⟩ := sampleInfo_extract
  obtain ⟨h1, _, h3, _, h5⟩ :=
    c10_provenance_tags sampleInfo none "2025-01-01 00:00:00 UTC" snap hsnap
  exact ⟨snap, hsnap, h1, h3, h5⟩
